import Mathlib

set_option maxHeartbeats 1000000

/-!
Shallow embedding of the TLS chunk ingestion and stream-demultiplexing engine
of `tls_poller.go` (package main of the tracer repository), together with the
generated record layout from the bpf2go output in the same source tree.

Pure functions of the source become Lean functions; the two event loops
(`pollChunksPerfBuffer` and `poll`) become total functions over an explicit
list of input events, stateful code becomes explicit state passing.  Machine
integers are modelled as `Nat` (no arithmetic in the source overflows), Go
`error` results become `Option String` / `Except String`.

Helpers of the repository that are not part of the provided source file
(`getAddressPair`, `isRequest`, `getReader`, `NewTlsStream`, `NewTlsReader`,
`TcpStreamMap`, and the `simplelru` LRU cache) are modelled from the
specification; each such definition carries a doc comment saying so.
-/

/-- `TcpID` (directional connection identity): source/destination address and
port rendered as text, exactly the four fields `buildTcpId` fills. -/
structure TcpID where
  SrcIP : String
  DstIP : String
  SrcPort : String
  DstPort : String
  deriving DecidableEq

/-- `addressPair`: parsed source/destination IP and port of one chunk.
The IPs are kept in their rendered (dotted-quad) string form, which is the
only form `buildTlsKey` and `buildTcpId` consume. -/
structure addressPair where
  srcIp : String
  srcPort : Nat
  dstIp : String
  dstPort : Nat
  deriving DecidableEq

/-- The nested `AddressInfo` struct of the generated `tracerTlsChunk`
(`saddr:u32, daddr:u32, sport:u16, dport:u16`). -/
structure tracerTlsChunkAddressInfo where
  Saddr : Nat
  Daddr : Nat
  Sport : Nat
  Dport : Nat
  deriving DecidableEq

/-- The generated `tracerTlsChunk` record
(`pid:u32, tgid:u32, len:u32, start:u32, recorded:u32, fd:u32, flags:u32,
address info, data:u8[4096]`).  `Data` holds the payload bytes. -/
structure tracerTlsChunk where
  Pid : Nat
  Tgid : Nat
  Len : Nat
  Start : Nat
  Recorded : Nat
  Fd : Nat
  Flags : Nat
  AddressInfo : tracerTlsChunkAddressInfo
  Data : List Nat
  deriving DecidableEq

/-- Modelled from the spec: the repository's IP-rendering helper is not in the
provided source.  The 32-bit address field is the little-endian decoding of
the network-byte-order address, so the low byte is the first octet of the
dotted quad. -/
def intToIP (n : Nat) : String :=
  toString (n % 256) ++ "." ++ toString (n / 256 % 256) ++ "." ++
    toString (n / 65536 % 256) ++ "." ++ toString (n / 16777216 % 256)

/-- Modelled from the spec: `getAddressPair` is not in the provided source;
the spec says the AddressPair is the "parsed source/destination IP and port
extracted from the quad" of the record.  Byte-order conversion of the port
values is abstracted: the ports are taken as already-parsed numbers. -/
def tracerTlsChunk.getAddressPair (c : tracerTlsChunk) : addressPair :=
  { srcIp := intToIP c.AddressInfo.Saddr
    srcPort := c.AddressInfo.Sport
    dstIp := intToIP c.AddressInfo.Daddr
    dstPort := c.AddressInfo.Dport }

/-- Modelled from the spec: `isRequest` is not in the provided source; the
spec says the direction flag is derived from the record's `flags` field.  The
exact bit position is not specified, so the least significant bit is used. -/
def tracerTlsChunk.isRequest (c : tracerTlsChunk) : Bool :=
  c.Flags % 2 == 1

/-- `buildTlsKey` from the source: `"src:sport>dst:dport"` when the chunk is a
request, the swapped rendering when it is a response. -/
def buildTlsKey (address : addressPair) (isReq : Bool) : String :=
  if isReq then
    address.srcIp ++ ":" ++ toString address.srcPort ++ ">" ++
      address.dstIp ++ ":" ++ toString address.dstPort
  else
    address.dstIp ++ ":" ++ toString address.dstPort ++ ">" ++
      address.srcIp ++ ":" ++ toString address.srcPort

/-- The logical reverse of an address quad: source and destination (IP and
port) swapped.  This is the quad carried by the opposite direction of the
same TCP exchange. -/
def reverseQuad (address : addressPair) : addressPair :=
  { srcIp := address.dstIp
    srcPort := address.dstPort
    dstIp := address.srcIp
    dstPort := address.srcPort }

/-- `buildTcpId` from the source: the request orientation renders the quad as
observed, the response orientation renders it swapped; ports are rendered in
base 10 as by `strconv.FormatUint`. -/
def buildTcpId (address : addressPair) (isReq : Bool) : TcpID :=
  if isReq then
    { SrcIP := address.srcIp
      DstIP := address.dstIp
      SrcPort := toString address.srcPort
      DstPort := toString address.dstPort }
  else
    { SrcIP := address.dstIp
      DstIP := address.srcIp
      SrcPort := toString address.dstPort
      DstPort := toString address.srcPort }

/-- Modelled from the spec: the per-direction reassembly context
(`NewTlsReader` is not in the provided source).  It is constructed from a
ConnectionIdentity and a client/server role flag; the back pointer to the
owning stream is dropped. -/
structure TlsReader where
  tcpID : TcpID
  isClient : Bool
  deriving DecidableEq

/-- Modelled from the spec: constructor of a per-direction reassembly
context. -/
def NewTlsReader (tcpID : TcpID) (isClient : Bool) : TlsReader :=
  { tcpID := tcpID, isClient := isClient }

/-- `tlsStream`: one TCP flow's bidirectional reassembly state, carrying its
registry key, the globally allocated identity, and the two per-direction
reassembly contexts. -/
structure tlsStream where
  key : String
  id : Nat
  client : TlsReader
  server : TlsReader
  deriving DecidableEq

/-- Modelled from the spec: `NewTlsStream` is not in the provided source; it
allocates a fresh stream for the given key, identity and reader fields still
unset. -/
def NewTlsStream (key : String) : tlsStream :=
  { key := key
    id := 0
    client := NewTlsReader { SrcIP := "", DstIP := "", SrcPort := "", DstPort := "" } true
    server := NewTlsReader { SrcIP := "", DstIP := "", SrcPort := "", DstPort := "" } false }

/-- `setId` on a stream. -/
def tlsStream.setId (s : tlsStream) (id : Nat) : tlsStream :=
  { s with id := id }

/-- Modelled from the spec: `getReader` is not in the provided source; the
spec routes a chunk to the client context when it is request-side traffic and
to the server context otherwise. -/
def tracerTlsChunk.getReader (c : tracerTlsChunk) (s : tlsStream) : TlsReader :=
  if c.isRequest then s.client else s.server

/-- Constants from the source: `fdCachedItemAvgSize = 40`. -/
def fdCachedItemAvgSize : Nat := 40

/-- `fdCacheMaxItems = 500000 / fdCachedItemAvgSize`. -/
def fdCacheMaxItems : Nat := 500000 / fdCachedItemAvgSize

/-- Modelled from the spec: the `simplelru.LRU` cache used as `fdCache`
(actual value type `addressPair`, per the source comment).  The entry list is
kept most-recently-used first; the capacity is fixed at construction. -/
structure LRU where
  capacity : Nat
  entries : List (String × addressPair)
  deriving DecidableEq

/-- Modelled from the spec: LRU insertion.  The key is moved to the
most-recent position (recency is updated on insert); if the size would exceed
the capacity the least-recently-used entry is dropped and the eviction
callback fires exactly once.  Returns the new cache and whether an eviction
occurred. -/
def LRU.add (c : LRU) (k : String) (v : addressPair) : LRU × Bool :=
  let entries := (k, v) :: c.entries.filter (fun e => e.1 != k)
  if c.capacity < entries.length then
    ({ c with entries := entries.dropLast }, true)
  else
    ({ c with entries := entries }, false)

/-- Modelled from the spec: `simplelru.NewLRU` fails with a configuration
error exactly when the requested capacity is non-positive. -/
def NewLRU (size : Nat) : Except String LRU :=
  if size = 0 then Except.error "must provide a positive size"
  else Except.ok { capacity := size, entries := [] }

/-- `fdCacheEvictCallback` from the source, as a pure function of the
poller's eviction counter: it increments the counter and reports whether the
diagnostic log line fires (counter a multiple of 1,000,000). -/
def fdCacheEvictCallback (evictedCounter : Nat) : Nat × Bool :=
  let c := evictedCounter + 1
  (c, c % 1000000 == 0)

/-- `tlsPoller` state: the flow registry (Go `map[string]*tlsStream`,
modelled as a function map, which like the Go map binds at most one stream
per key), the fd cache and its eviction counter.  The channels and external
handles are modelled by the event lists the loops consume. -/
structure tlsPoller where
  streams : String → Option tlsStream
  fdCache : LRU
  evictedCounter : Nat

/-- One fd-cache insertion at the poller level: `LRU.add` plus, when an
eviction occurred, one invocation of `fdCacheEvictCallback` on the poller's
counter (the Go cache invokes the callback it was constructed with). -/
def tlsPoller.fdCacheAdd (p : tlsPoller) (k : String) (v : addressPair) : tlsPoller :=
  let r := p.fdCache.add k v
  if r.2 then
    { p with fdCache := r.1, evictedCounter := (fdCacheEvictCallback p.evictedCounter).1 }
  else
    { p with fdCache := r.1 }

/-- Folding a list of insertions into the fd cache. -/
def fdCacheAddAll (p : tlsPoller) (kvs : List (String × addressPair)) : tlsPoller :=
  kvs.foldl (fun q kv => q.fdCacheAdd kv.1 kv.2) p

/-- `newTlsPoller` from the source: builds the poller with an empty stream
registry, then constructs the LRU fd cache of capacity `fdCacheMaxItems`,
propagating a construction error. -/
def newTlsPoller : Except String tlsPoller :=
  let poller : tlsPoller :=
    { streams := fun _ => none
      fdCache := { capacity := 0, entries := [] }
      evictedCounter := 0 }
  match NewLRU fdCacheMaxItems with
  | Except.error e => Except.error e
  | Except.ok fdCache => Except.ok { poller with fdCache := fdCache }

/-- Modelled from the spec: the shared stream table (`TcpStreamMap` is not in
the provided source).  `NextId` hands out monotonically increasing identities
and `Store` registers a stream in the shared table. -/
structure TcpStreamMap where
  streamId : Nat
  table : List (Nat × tlsStream)
  deriving DecidableEq

/-- Modelled from the spec: the identity allocator; returns the fresh
identity and the advanced allocator. -/
def TcpStreamMap.NextId (m : TcpStreamMap) : Nat × TcpStreamMap :=
  (m.streamId + 1, { m with streamId := m.streamId + 1 })

/-- Modelled from the spec: registering a stream in the shared table. -/
def TcpStreamMap.Store (m : TcpStreamMap) (id : Nat) (s : tlsStream) : TcpStreamMap :=
  { m with table := (id, s) :: m.table }

/-- Result of one `handleTlsChunk` call: the updated poller and shared map,
the key the chunk mapped to, the stream the chunk was routed to, which side
received it, whether this call created the stream, and the returned error. -/
structure handleResult where
  poller : tlsPoller
  streamsMap : TcpStreamMap
  key : String
  stream : tlsStream
  toClient : Bool
  created : Bool
  err : Option String

/-- The FlowKey a chunk maps to. -/
def chunkKey (c : tracerTlsChunk) : String :=
  buildTlsKey c.getAddressPair c.isRequest

/-- `handleTlsChunk` from the source.  On an unseen key it allocates a fresh
identity, builds the stream with its two readers (client bound to the
request-oriented identity of the observed quad, server to the
response-oriented one), stores it in the shared table and in the registry.
The Go code stores a pointer and only then assigns the reader fields, so the
stored value observably has the readers set; the model stores the completed
stream.  The chunk is then routed to the reader matching its direction, and
`nil` is returned. -/
def handleTlsChunk (p : tlsPoller) (sm : TcpStreamMap) (c : tracerTlsChunk) : handleResult :=
  let address := c.getAddressPair
  let key := buildTlsKey address c.isRequest
  match p.streams key with
  | some stream =>
      { poller := p, streamsMap := sm, key := key, stream := stream
        toClient := c.isRequest, created := false, err := none }
  | none =>
      let nid := sm.NextId
      let stream :=
        { (NewTlsStream key).setId nid.1 with
          client := NewTlsReader (buildTcpId address true) true
          server := NewTlsReader (buildTcpId address false) false }
      let sm' := nid.2.Store nid.1 stream
      { poller := { p with streams := Function.update p.streams key (some stream) }
        streamsMap := sm', key := key, stream := stream
        toClient := c.isRequest, created := true, err := none }

/-- One input observed by the demultiplexer loop `poll`: a chunk delivered on
the handoff queue, the handoff queue reporting closed (`ok = false`), or a
key delivered on the teardown queue `closeStreams`.  A list of these events
is one interleaving chosen by `select`. -/
inductive pollEvent where
  | chunk (c : tracerTlsChunk)
  | chunkClosed
  | closeKey (key : String)
  deriving DecidableEq

/-- Observable outcome of a `poll` run: final poller and shared map, the
dispatches performed (key, stream routed to, client side?), the stream
creations performed (key, stream), and how many dispatch errors were
logged. -/
structure pollState where
  poller : tlsPoller
  streamsMap : TcpStreamMap
  dispatched : List (String × tlsStream × Bool)
  created : List (String × tlsStream)
  dispatchErrors : Nat

/-- The `poll` loop from the source over an explicit event list: a chunk is
handed to `handleTlsChunk` (logging a dispatch error if one is returned), a
teardown key is deleted from the local registry, and a closed handoff queue
makes the loop return at once — events after it are never processed. -/
def poll (p : tlsPoller) (sm : TcpStreamMap) : List pollEvent → pollState
  | [] =>
      { poller := p, streamsMap := sm, dispatched := [], created := [], dispatchErrors := 0 }
  | pollEvent.chunk c :: rest =>
      let r := handleTlsChunk p sm c
      let out := poll r.poller r.streamsMap rest
      { out with
        dispatched := (r.key, r.stream, r.toClient) :: out.dispatched
        created := if r.created then (r.key, r.stream) :: out.created else out.created
        dispatchErrors := (if r.err.isSome then 1 else 0) + out.dispatchErrors }
  | pollEvent.chunkClosed :: _ =>
      { poller := p, streamsMap := sm, dispatched := [], created := [], dispatchErrors := 0 }
  | pollEvent.closeKey key :: rest =>
      poll { p with streams := Function.update p.streams key none } sm rest

/-- One result of `chunksReader.Read()`: a record carrying a lost-sample
count and raw bytes, the clean-closed sentinel `perf.ErrClosed`, or any other
read error. -/
inductive readResult where
  | ok (lostSamples : Nat) (rawSample : List Nat)
  | errClosed
  | errOther (msg : String)
  deriving DecidableEq

/-- Observable outcome of the ingestion loop: the chunks pushed onto the
handoff queue (in order), whether the queue was closed, whether the read
error was logged, the lost-sample counts that were logged, and how many
decode errors were logged. -/
structure ingestResult where
  pushed : List tracerTlsChunk
  closed : Bool
  errorLogged : Bool
  lostLogs : List Nat
  decodeErrors : Nat
  deriving DecidableEq

/-- Little-endian 16-bit read at a byte offset (missing bytes read as 0,
which never happens on a length-checked buffer). -/
def readU16 (bs : List Nat) (i : Nat) : Nat :=
  bs.getD i 0 + 256 * bs.getD (i + 1) 0

/-- Little-endian 32-bit read at a byte offset. -/
def readU32 (bs : List Nat) (i : Nat) : Nat :=
  readU16 bs i + 65536 * readU16 bs (i + 2)

/-- Wire size of `tracerTlsChunk`: 7 four-byte fields, the 12-byte address
info, and 4096 payload bytes. -/
def tracerTlsChunkSize : Nat := 4136

/-- `binary.Read(buffer, binary.LittleEndian, &chunk)`: decodes the fixed
little-endian layout, failing exactly when the buffer is too short. -/
def decodeTlsChunk (bs : List Nat) : Option tracerTlsChunk :=
  if bs.length < tracerTlsChunkSize then none
  else some
    { Pid := readU32 bs 0
      Tgid := readU32 bs 4
      Len := readU32 bs 8
      Start := readU32 bs 12
      Recorded := readU32 bs 16
      Fd := readU32 bs 20
      Flags := readU32 bs 24
      AddressInfo :=
        { Saddr := readU32 bs 28
          Daddr := readU32 bs 32
          Sport := readU16 bs 36
          Dport := readU16 bs 38 }
      Data := (bs.drop 40).take 4096 }

/-- The `pollChunksPerfBuffer` loop from the source over an explicit list of
read results.  On any read error the handoff queue is closed and the loop
returns, logging the error unless it is the clean-closed sentinel; a non-zero
lost-sample count is logged and the record skipped; a decode failure is
logged and the record skipped; otherwise the decoded chunk is pushed. -/
def pollChunksPerfBuffer : List readResult → ingestResult
  | [] =>
      { pushed := [], closed := false, errorLogged := false, lostLogs := [], decodeErrors := 0 }
  | readResult.errClosed :: _ =>
      { pushed := [], closed := true, errorLogged := false, lostLogs := [], decodeErrors := 0 }
  | readResult.errOther _ :: _ =>
      { pushed := [], closed := true, errorLogged := true, lostLogs := [], decodeErrors := 0 }
  | readResult.ok lostSamples rawSample :: rest =>
      if lostSamples ≠ 0 then
        let r := pollChunksPerfBuffer rest
        { r with lostLogs := lostSamples :: r.lostLogs }
      else
        match decodeTlsChunk rawSample with
        | none =>
            let r := pollChunksPerfBuffer rest
            { r with decodeErrors := r.decodeErrors + 1 }
        | some c =>
            let r := pollChunksPerfBuffer rest
            { r with pushed := c :: r.pushed }

/-- The stream built by the creation branch of `handleTlsChunk` for a chunk
`c` when the allocator state is `sm`. -/
def newStreamFor (sm : TcpStreamMap) (c : tracerTlsChunk) : tlsStream :=
  { key := chunkKey c
    id := sm.streamId + 1
    client := NewTlsReader (buildTcpId c.getAddressPair true) true
    server := NewTlsReader (buildTcpId c.getAddressPair false) false }

lemma handleTlsChunk_hit (p : tlsPoller) (sm : TcpStreamMap) (c : tracerTlsChunk)
    (s : tlsStream) (h : p.streams (chunkKey c) = some s) :
    handleTlsChunk p sm c =
      { poller := p, streamsMap := sm, key := chunkKey c, stream := s
        toClient := c.isRequest, created := false, err := none } := by
  simp only [chunkKey] at h
  simp only [handleTlsChunk, h, chunkKey]

lemma handleTlsChunk_miss (p : tlsPoller) (sm : TcpStreamMap) (c : tracerTlsChunk)
    (h : p.streams (chunkKey c) = none) :
    handleTlsChunk p sm c =
      { poller :=
          { p with streams := Function.update p.streams (chunkKey c) (some (newStreamFor sm c)) }
        streamsMap :=
          { streamId := sm.streamId + 1, table := (sm.streamId + 1, newStreamFor sm c) :: sm.table }
        key := chunkKey c, stream := newStreamFor sm c
        toClient := c.isRequest, created := true, err := none } := by
  simp only [chunkKey] at h
  simp only [handleTlsChunk, h, chunkKey, newStreamFor, NewTlsStream, tlsStream.setId,
    TcpStreamMap.NextId, TcpStreamMap.Store]

lemma handleTlsChunk_err_none (p : tlsPoller) (sm : TcpStreamMap) (c : tracerTlsChunk) :
    (handleTlsChunk p sm c).err = none := by
  rcases h : p.streams (chunkKey c) with _ | s
  · rw [handleTlsChunk_miss p sm c h]
  · rw [handleTlsChunk_hit p sm c s h]

lemma poll_dispatchErrors (events : List pollEvent) :
    ∀ p sm, (poll p sm events).dispatchErrors = 0 := by
  induction events with
  | nil => intro p sm; rfl
  | cons e rest ih =>
    intro p sm
    cases e with
    | chunk c => simp [poll, handleTlsChunk_err_none, ih]
    | chunkClosed => rfl
    | closeKey k => simp [poll, ih]

lemma poll_stops_at_closed (pre : List pollEvent) :
    ∀ p sm post, poll p sm (pre ++ pollEvent.chunkClosed :: post) =
      poll p sm (pre ++ [pollEvent.chunkClosed]) := by
  induction pre with
  | nil => intro p sm post; rfl
  | cons e pre ih =>
    intro p sm post
    cases e with
    | chunk c => simp only [List.cons_append, poll, List.append_eq]; rw [ih]
    | chunkClosed => rfl
    | closeKey k => simp only [List.cons_append, poll, List.append_eq]; rw [ih]

/-- Claim C2: for every address quad, the FlowKey built with the direction
flag true equals the FlowKey built from the logically reversed quad with the
flag false, so request and response chunks of one exchange collide to one
key. -/
theorem buildTlsKey_request_eq_reverse_response (a : addressPair) :
    buildTlsKey a true = buildTlsKey (reverseQuad a) false := rfl

/-- Claim C7: each eviction increments the counter by exactly one, and the
diagnostic log fires exactly when the counter after the increment is a
multiple of 1,000,000 — never at evictions 1 through 999,999, and at the
1,000,000th. -/
theorem fdCacheEvictCallback_throttle (n : Nat) :
    (fdCacheEvictCallback n).1 = n + 1 ∧
    ((fdCacheEvictCallback n).2 = true ↔ (n + 1) % 1000000 = 0) ∧
    (n + 1 < 1000000 → (fdCacheEvictCallback n).2 = false) ∧
    (fdCacheEvictCallback 999999).2 = true := by
  refine ⟨rfl, ?_, ?_, by decide⟩
  · simp [fdCacheEvictCallback]
  · intro h
    have h0 : (n + 1) % 1000000 = n + 1 := Nat.mod_eq_of_lt h
    simp [fdCacheEvictCallback, h0]

theorem fdCacheEvictCallback_throttle_witness :
    (fdCacheEvictCallback 41).2 = false :=
  (fdCacheEvictCallback_throttle 41).2.2.1 (by decide)

/-- Claim C9: `newTlsPoller` never returns an error: the LRU capacity is the
compile-time constant 500000/40 = 12500 > 0, so the only failure branch is
unreachable and the returned poller has an empty stream registry. -/
theorem newTlsPoller_never_errors :
    ∃ p, newTlsPoller = Except.ok p ∧ p.fdCache.capacity = fdCacheMaxItems ∧
      fdCacheMaxItems = 12500 ∧ ∀ k, p.streams k = none := by
  refine ⟨{ streams := fun _ => none
            fdCache := { capacity := fdCacheMaxItems, entries := [] }
            evictedCounter := 0 }, rfl, rfl, by decide, fun k => rfl⟩

/-- Claim C10: `handleTlsChunk` returns nil on every input, so the
dispatch-error logging branch of the demultiplexer loop never fires. -/
theorem handleTlsChunk_never_fails :
    (∀ p sm c, (handleTlsChunk p sm c).err = none) ∧
    (∀ p sm events, (poll p sm events).dispatchErrors = 0) :=
  ⟨handleTlsChunk_err_none, fun p sm events => poll_dispatchErrors events p sm⟩

/-- Claim C5: a read error makes the ingestion loop close the handoff queue
and return — without logging on the clean-closed sentinel, with logging on
any other error — and the demultiplexer run ignores every event after the
handoff queue closes, so no registry mutation happens after its return. -/
theorem readError_shutdown :
    (∀ rest, pollChunksPerfBuffer (readResult.errClosed :: rest) =
      { pushed := [], closed := true, errorLogged := false, lostLogs := [], decodeErrors := 0 }) ∧
    (∀ msg rest, pollChunksPerfBuffer (readResult.errOther msg :: rest) =
      { pushed := [], closed := true, errorLogged := true, lostLogs := [], decodeErrors := 0 }) ∧
    (∀ p sm pre post, poll p sm (pre ++ pollEvent.chunkClosed :: post) =
      poll p sm (pre ++ [pollEvent.chunkClosed])) :=
  ⟨fun _ => rfl, fun _ _ => rfl, fun p sm pre post => poll_stops_at_closed pre p sm post⟩

/-- Claim C6: a record with a non-zero lost-sample count only logs the count:
no chunk is pushed for it and the loop continues exactly as it would on the
remaining reads. -/
theorem lostSamples_skipped (lost : Nat) (raw : List Nat) (rest : List readResult)
    (h : lost ≠ 0) :
    pollChunksPerfBuffer (readResult.ok lost raw :: rest) =
      { pollChunksPerfBuffer rest with
        lostLogs := lost :: (pollChunksPerfBuffer rest).lostLogs } := by
  simp [pollChunksPerfBuffer, h]

theorem lostSamples_skipped_witness :
    pollChunksPerfBuffer [readResult.ok 7 []] =
      { pollChunksPerfBuffer [] with lostLogs := 7 :: (pollChunksPerfBuffer []).lostLogs } :=
  lostSamples_skipped 7 [] [] (by decide)

/-- Whether an event is a chunk mapping to FlowKey `k`. -/
def isChunkForKey (k : String) : pollEvent → Bool
  | pollEvent.chunk c => chunkKey c == k
  | _ => false

/-- The empty shared stream table. -/
def smEx : TcpStreamMap := { streamId := 0, table := [] }

/-- A freshly constructed poller (empty registry, empty fd cache). -/
def pollerEx : tlsPoller :=
  { streams := fun _ => none
    fdCache := { capacity := fdCacheMaxItems, entries := [] }
    evictedCounter := 0 }

/-- A request-direction chunk: observed quad 10.0.0.1:5000 -> 10.0.0.2:443
(the 32-bit addresses are the little-endian decodings 0x0100000A and
0x0200000A). -/
def chunkExA : tracerTlsChunk :=
  { Pid := 1, Tgid := 1, Len := 5, Start := 0, Recorded := 5, Fd := 3, Flags := 1
    AddressInfo := { Saddr := 16777226, Daddr := 33554442, Sport := 5000, Dport := 443 }
    Data := [] }

/-- The response-direction chunk of the same exchange: it carries the
logically reversed quad 10.0.0.2:443 -> 10.0.0.1:5000. -/
def chunkExB : tracerTlsChunk :=
  { chunkExA with
    Flags := 0
    AddressInfo := { Saddr := 33554442, Daddr := 16777226, Sport := 443, Dport := 5000 } }

/-- The FlowKey both example chunks map to. -/
def keyEx : String := "10.0.0.1:5000>10.0.0.2:443"

lemma poll_streamId (events : List pollEvent) :
    ∀ p sm, (poll p sm events).streamsMap.streamId =
      sm.streamId + (poll p sm events).created.length := by
  induction events with
  | nil => intro p sm; rfl
  | cons e rest ih =>
    intro p sm
    cases e with
    | chunk c =>
      rcases h : p.streams (chunkKey c) with _ | s
      · simp [poll, handleTlsChunk_miss p sm c h, ih]
        omega
      · simp [poll, handleTlsChunk_hit p sm c s h, ih]
    | chunkClosed => simp [poll]
    | closeKey key => simp [poll, ih]

lemma poll_bound (events : List pollEvent) :
    ∀ (p : tlsPoller) (sm : TcpStreamMap) (k : String) (s : tlsStream),
      pollEvent.chunkClosed ∉ events → pollEvent.closeKey k ∉ events →
      p.streams k = some s →
      (poll p sm events).poller.streams k = some s ∧
      (poll p sm events).created.filter (fun e => e.1 == k) = [] ∧
      (∀ d ∈ (poll p sm events).dispatched, d.1 = k → d.2.1 = s) := by
  induction events with
  | nil =>
    intro p sm k s _ _ hk
    exact ⟨hk, rfl, by simp [poll]⟩
  | cons e rest ih =>
    intro p sm k s h1 h2 hk
    have h1' : pollEvent.chunkClosed ∉ rest := fun hm => h1 (List.mem_cons_of_mem _ hm)
    have h2' : pollEvent.closeKey k ∉ rest := fun hm => h2 (List.mem_cons_of_mem _ hm)
    cases e with
    | chunkClosed => exact absurd (List.mem_cons_self _ _) h1
    | closeKey key =>
      have hkk : k ≠ key := by
        intro he
        exact h2 (by rw [he]; exact List.mem_cons_self _ _)
      have hk' : (Function.update p.streams key none) k = some s := by
        rw [Function.update_noteq hkk]; exact hk
      have := ih { p with streams := Function.update p.streams key none } sm k s h1' h2' hk'
      simpa [poll] using this
    | chunk c =>
      by_cases hck : chunkKey c = k
      · have hh := handleTlsChunk_hit p sm c s (by rw [hck]; exact hk)
        have hpoller : (handleTlsChunk p sm c).poller = p := by rw [hh]
        have hsm : (handleTlsChunk p sm c).streamsMap = sm := by rw [hh]
        have hkey : (handleTlsChunk p sm c).key = chunkKey c := by rw [hh]
        have hstream : (handleTlsChunk p sm c).stream = s := by rw [hh]
        have hcreated : (handleTlsChunk p sm c).created = false := by rw [hh]
        obtain ⟨ha, hb, hc⟩ := ih (handleTlsChunk p sm c).poller
          (handleTlsChunk p sm c).streamsMap k s h1' h2' (by rw [hpoller]; exact hk)
        refine ⟨?_, ?_, ?_⟩
        · simp only [poll]; exact ha
        · simp only [poll, hcreated]; simpa using hb
        · intro d hd hdk
          simp only [poll] at hd
          rcases List.mem_cons.mp hd with heq | hmem
          · rw [heq, hstream]
          · exact hc d hmem hdk
      · rcases hpc : p.streams (chunkKey c) with _ | s2
        · have hm := handleTlsChunk_miss p sm c hpc
          have hkey : (handleTlsChunk p sm c).key = chunkKey c := by rw [hm]
          have hcreated : (handleTlsChunk p sm c).created = true := by rw [hm]
          have hk' : (handleTlsChunk p sm c).poller.streams k = some s := by
            rw [hm]
            simpa [Function.update_noteq (fun he => hck he.symm)] using hk
          obtain ⟨ha, hb, hc⟩ := ih (handleTlsChunk p sm c).poller
            (handleTlsChunk p sm c).streamsMap k s h1' h2' hk'
          refine ⟨?_, ?_, ?_⟩
          · simp only [poll]; exact ha
          · simp only [poll, hcreated]
            simp [List.filter_cons, hkey, hck, hb]
          · intro d hd hdk
            simp only [poll] at hd
            rcases List.mem_cons.mp hd with heq | hmem
            · rw [heq] at hdk
              simp only [hkey] at hdk
              exact absurd hdk hck
            · exact hc d hmem hdk
        · have hh := handleTlsChunk_hit p sm c s2 hpc
          have hpoller : (handleTlsChunk p sm c).poller = p := by rw [hh]
          have hkey : (handleTlsChunk p sm c).key = chunkKey c := by rw [hh]
          have hcreated : (handleTlsChunk p sm c).created = false := by rw [hh]
          obtain ⟨ha, hb, hc⟩ := ih (handleTlsChunk p sm c).poller
            (handleTlsChunk p sm c).streamsMap k s h1' h2' (by rw [hpoller]; exact hk)
          refine ⟨?_, ?_, ?_⟩
          · simp only [poll]; exact ha
          · simp only [poll, hcreated]; simpa using hb
          · intro d hd hdk
            simp only [poll] at hd
            rcases List.mem_cons.mp hd with heq | hmem
            · rw [heq] at hdk
              simp only [hkey] at hdk
              exact absurd hdk hck
            · exact hc d hmem hdk

lemma poll_fresh (events : List pollEvent) :
    ∀ (p : tlsPoller) (sm : TcpStreamMap) (k : String),
      pollEvent.chunkClosed ∉ events → pollEvent.closeKey k ∉ events →
      p.streams k = none →
      (((poll p sm events).created.filter (fun e => e.1 == k)).length =
        if events.any (isChunkForKey k) = true then 1 else 0) ∧
      (∀ d ∈ (poll p sm events).dispatched, d.1 = k →
        (poll p sm events).poller.streams k = some d.2.1) := by
  induction events with
  | nil =>
    intro p sm k _ _ _
    exact ⟨by simp [poll], by simp [poll]⟩
  | cons e rest ih =>
    intro p sm k h1 h2 hk
    have h1' : pollEvent.chunkClosed ∉ rest := fun hm => h1 (List.mem_cons_of_mem _ hm)
    have h2' : pollEvent.closeKey k ∉ rest := fun hm => h2 (List.mem_cons_of_mem _ hm)
    cases e with
    | chunkClosed => exact absurd (List.mem_cons_self _ _) h1
    | closeKey key =>
      have hkk : k ≠ key := by
        intro he
        exact h2 (by rw [he]; exact List.mem_cons_self _ _)
      have hk' : (Function.update p.streams key none) k = none := by
        rw [Function.update_noteq hkk]; exact hk
      have := ih { p with streams := Function.update p.streams key none } sm k h1' h2' hk'
      simpa [poll, isChunkForKey] using this
    | chunk c =>
      by_cases hck : chunkKey c = k
      · subst hck
        have hm := handleTlsChunk_miss p sm c hk
        have hkey : (handleTlsChunk p sm c).key = chunkKey c := by rw [hm]
        have hcreated : (handleTlsChunk p sm c).created = true := by rw [hm]
        have hstream : (handleTlsChunk p sm c).stream = newStreamFor sm c := by rw [hm]
        have hk' : (handleTlsChunk p sm c).poller.streams (chunkKey c) =
            some (newStreamFor sm c) := by
          rw [hm]; simp [Function.update_same]
        obtain ⟨ha, hb, hc⟩ := poll_bound rest (handleTlsChunk p sm c).poller
          (handleTlsChunk p sm c).streamsMap (chunkKey c) (newStreamFor sm c) h1' h2' hk'
        refine ⟨?_, ?_⟩
        · simp only [poll, hcreated, hkey, hstream]
          simp [List.filter_cons, hb, isChunkForKey]
        · intro d hd hdk
          simp only [poll] at hd ⊢
          rcases List.mem_cons.mp hd with heq | hmem
          · rw [heq]
            simp only [hstream]
            exact ha
          · rw [hc d hmem hdk]
            exact ha
      · rcases hpc : p.streams (chunkKey c) with _ | s2
        · have hm := handleTlsChunk_miss p sm c hpc
          have hkey : (handleTlsChunk p sm c).key = chunkKey c := by rw [hm]
          have hcreated : (handleTlsChunk p sm c).created = true := by rw [hm]
          have hk' : (handleTlsChunk p sm c).poller.streams k = none := by
            rw [hm]
            simpa [Function.update_noteq (fun he => hck he.symm)] using hk
          obtain ⟨hA, hB⟩ := ih (handleTlsChunk p sm c).poller
            (handleTlsChunk p sm c).streamsMap k h1' h2' hk'
          refine ⟨?_, ?_⟩
          · simp only [poll, hcreated]
            simp [List.filter_cons, hkey, hck, hA, isChunkForKey]
          · intro d hd hdk
            simp only [poll] at hd ⊢
            rcases List.mem_cons.mp hd with heq | hmem
            · rw [heq] at hdk
              simp only [hkey] at hdk
              exact absurd hdk hck
            · exact hB d hmem hdk
        · have hh := handleTlsChunk_hit p sm c s2 hpc
          have hpoller : (handleTlsChunk p sm c).poller = p := by rw [hh]
          have hkey : (handleTlsChunk p sm c).key = chunkKey c := by rw [hh]
          have hcreated : (handleTlsChunk p sm c).created = false := by rw [hh]
          obtain ⟨hA, hB⟩ := ih (handleTlsChunk p sm c).poller
            (handleTlsChunk p sm c).streamsMap k h1' h2' (by rw [hpoller]; exact hk)
          refine ⟨?_, ?_⟩
          · simp only [poll, hcreated]
            simp [hA, hck, isChunkForKey]
          · intro d hd hdk
            simp only [poll] at hd ⊢
            rcases List.mem_cons.mp hd with heq | hmem
            · rw [heq] at hdk
              simp only [hkey] at hdk
              exact absurd hdk hck
            · exact hB d hmem hdk

/-- Claim C1: starting from a registry with no live stream for FlowKey `k`,
any run without a teardown for `k` and without a queue-close creates exactly
one stream for `k` when some chunk maps to `k` (and none otherwise), requests
exactly one identity per stream creation, and routes every chunk for `k` to
the unique stream live in the registry under `k`. -/
theorem one_stream_per_flowKey (events : List pollEvent) (p : tlsPoller)
    (sm : TcpStreamMap) (k : String)
    (h1 : pollEvent.chunkClosed ∉ events) (h2 : pollEvent.closeKey k ∉ events)
    (h3 : p.streams k = none) :
    ((poll p sm events).streamsMap.streamId =
      sm.streamId + (poll p sm events).created.length) ∧
    (((poll p sm events).created.filter (fun e => e.1 == k)).length =
      if events.any (isChunkForKey k) = true then 1 else 0) ∧
    (∀ d ∈ (poll p sm events).dispatched, d.1 = k →
      (poll p sm events).poller.streams k = some d.2.1) :=
  ⟨poll_streamId events p sm, (poll_fresh events p sm k h1 h2 h3).1,
    (poll_fresh events p sm k h1 h2 h3).2⟩

/-- The demultiplexer run used by the C1 witness: a request chunk and the
matching response chunk of one exchange. -/
def eventsEx : List pollEvent := [pollEvent.chunk chunkExA, pollEvent.chunk chunkExB]

theorem one_stream_per_flowKey_witness :
    ((poll pollerEx smEx eventsEx).streamsMap.streamId =
      smEx.streamId + (poll pollerEx smEx eventsEx).created.length) ∧
    (((poll pollerEx smEx eventsEx).created.filter (fun e => e.1 == keyEx)).length =
      if eventsEx.any (isChunkForKey keyEx) = true then 1 else 0) ∧
    (∀ d ∈ (poll pollerEx smEx eventsEx).dispatched, d.1 = keyEx →
      (poll pollerEx smEx eventsEx).poller.streams keyEx = some d.2.1) :=
  one_stream_per_flowKey eventsEx pollerEx smEx keyEx (by decide) (by decide) rfl

/-- Claim C3 counterexample: the request chunk (quad as observed) and the
response chunk (reversed quad) of one exchange map to the same FlowKey, yet
the client identity bound at creation differs with the direction of the
chunk that triggered creation: a response-triggered creation does not bind
the claimed client identity {src=10.0.0.1:5000, dst=10.0.0.2:443}. -/
theorem creation_identity_depends_on_trigger :
    chunkKey chunkExA = keyEx ∧ chunkKey chunkExB = keyEx ∧
    (handleTlsChunk pollerEx smEx chunkExA).stream.client.tcpID =
      { SrcIP := "10.0.0.1", DstIP := "10.0.0.2", SrcPort := "5000", DstPort := "443" } ∧
    (handleTlsChunk pollerEx smEx chunkExB).stream.client.tcpID ≠
      { SrcIP := "10.0.0.1", DstIP := "10.0.0.2", SrcPort := "5000", DstPort := "443" } ∧
    (handleTlsChunk pollerEx smEx chunkExB).stream.client.tcpID ≠
      (handleTlsChunk pollerEx smEx chunkExA).stream.client.tcpID := by
  decide

/-- Claim C3 (amended): at stream creation the client context is bound to the
request-oriented identity of the quad observed in the chunk that triggered
creation and the server context to its response-oriented identity; both are
computed unconditionally from that observed quad, so the bound identities
follow the triggering chunk's orientation (they are not independent of
it). -/
theorem creation_identities_from_trigger (p : tlsPoller) (sm : TcpStreamMap)
    (c : tracerTlsChunk) (h : p.streams (chunkKey c) = none) :
    (handleTlsChunk p sm c).stream.client.tcpID = buildTcpId c.getAddressPair true ∧
    (handleTlsChunk p sm c).stream.server.tcpID = buildTcpId c.getAddressPair false ∧
    (handleTlsChunk p sm c).stream.client.isClient = true ∧
    (handleTlsChunk p sm c).stream.server.isClient = false := by
  rw [handleTlsChunk_miss p sm c h]
  exact ⟨rfl, rfl, rfl, rfl⟩

theorem creation_identities_from_trigger_witness :
    (handleTlsChunk pollerEx smEx chunkExA).stream.client.tcpID =
      buildTcpId chunkExA.getAddressPair true ∧
    (handleTlsChunk pollerEx smEx chunkExA).stream.server.tcpID =
      buildTcpId chunkExA.getAddressPair false ∧
    (handleTlsChunk pollerEx smEx chunkExA).stream.client.isClient = true ∧
    (handleTlsChunk pollerEx smEx chunkExA).stream.server.isClient = false :=
  creation_identities_from_trigger pollerEx smEx chunkExA rfl

/-- Claim C4: a teardown notification for `k` removes exactly the registry
entry for `k`: every other entry, the fd cache, the eviction counter and the
shared stream table are unchanged, nothing is dispatched or created by it,
and a later chunk for `k` creates a brand-new stream with a freshly
allocated identity (distinct from any identity the torn-down stream had
received from the allocator). -/
theorem teardown_removes_only_key (p : tlsPoller) (sm : TcpStreamMap) (k : String) :
    ((poll p sm [pollEvent.closeKey k]).poller.streams k = none) ∧
    (∀ k', k' ≠ k → (poll p sm [pollEvent.closeKey k]).poller.streams k' = p.streams k') ∧
    ((poll p sm [pollEvent.closeKey k]).streamsMap = sm) ∧
    ((poll p sm [pollEvent.closeKey k]).poller.fdCache = p.fdCache) ∧
    ((poll p sm [pollEvent.closeKey k]).poller.evictedCounter = p.evictedCounter) ∧
    ((poll p sm [pollEvent.closeKey k]).dispatched = []) ∧
    ((poll p sm [pollEvent.closeKey k]).created = []) ∧
    (∀ c, chunkKey c = k →
      (handleTlsChunk (poll p sm [pollEvent.closeKey k]).poller sm c).created = true ∧
      (handleTlsChunk (poll p sm [pollEvent.closeKey k]).poller sm c).streamsMap.streamId =
        sm.streamId + 1 ∧
      (handleTlsChunk (poll p sm [pollEvent.closeKey k]).poller sm c).stream.id =
        sm.streamId + 1 ∧
      (handleTlsChunk (poll p sm [pollEvent.closeKey k]).poller sm c).poller.streams k =
        some (handleTlsChunk (poll p sm [pollEvent.closeKey k]).poller sm c).stream ∧
      (∀ s, p.streams k = some s → s.id ≤ sm.streamId →
        (handleTlsChunk (poll p sm [pollEvent.closeKey k]).poller sm c).stream.id ≠ s.id)) := by
  have hpoll : poll p sm [pollEvent.closeKey k] =
      { poller := { p with streams := Function.update p.streams k none }
        streamsMap := sm, dispatched := [], created := [], dispatchErrors := 0 } := rfl
  rw [hpoll]
  refine ⟨by simp [Function.update_same], fun k' hk' => by simp [Function.update_noteq hk'],
    rfl, rfl, rfl, rfl, rfl, ?_⟩
  intro c hc
  have hnone : (Function.update p.streams k none) (chunkKey c) = none := by
    rw [hc, Function.update_same]
  have hm := handleTlsChunk_miss { p with streams := Function.update p.streams k none } sm c hnone
  rw [hm]
  refine ⟨rfl, rfl, rfl, ?_, ?_⟩
  · show (Function.update (Function.update p.streams k none) (chunkKey c)
      (some (newStreamFor sm c))) k = some (newStreamFor sm c)
    rw [hc, Function.update_same]
  · intro s _ hsid
    show (newStreamFor sm c).id ≠ s.id
    simp only [newStreamFor]
    omega

theorem teardown_removes_only_key_witness :
    ((poll pollerEx smEx [pollEvent.closeKey keyEx]).poller.streams keyEx = none) ∧
    ((poll pollerEx smEx [pollEvent.closeKey keyEx]).poller.streams "other" =
      pollerEx.streams "other") ∧
    ((handleTlsChunk (poll pollerEx smEx [pollEvent.closeKey keyEx]).poller smEx
        chunkExB).created = true) :=
  ⟨(teardown_removes_only_key pollerEx smEx keyEx).1,
   (teardown_removes_only_key pollerEx smEx keyEx).2.1 "other" (by decide),
   ((teardown_removes_only_key pollerEx smEx keyEx).2.2.2.2.2.2.2 chunkExB (by decide)).1⟩

lemma map_fst_dropLast (l : List (String × addressPair)) :
    l.dropLast.map Prod.fst = (l.map Prod.fst).dropLast := by
  rw [List.dropLast_eq_take, List.dropLast_eq_take, List.map_take, List.length_map]

lemma fdCacheAddAll_append_single (p : tlsPoller) (kvs : List (String × addressPair))
    (kv : String × addressPair) :
    fdCacheAddAll p (kvs ++ [kv]) = (fdCacheAddAll p kvs).fdCacheAdd kv.1 kv.2 := by
  simp [fdCacheAddAll, List.foldl_append]

lemma cons_take_dropLast (k : String) (l : List String) (cap : Nat) (hlen : cap ≤ l.length) :
    (k :: l.take cap).dropLast = (k :: l).take cap := by
  cases cap with
  | zero => simp
  | succ m =>
    have ht : (l.take (m + 1)).length = m + 1 := by
      rw [List.length_take]; omega
    rw [List.dropLast_eq_take, List.length_cons, ht, Nat.add_sub_cancel,
      List.take_succ_cons, List.take_succ_cons, List.take_take,
      min_eq_left (Nat.le_succ m)]

lemma fdCacheAddAll_spec (v : addressPair) (keys : List String) :
    ∀ p : tlsPoller, p.fdCache.entries = [] → keys.Nodup →
      ((fdCacheAddAll p (keys.map fun k => (k, v))).fdCache.capacity = p.fdCache.capacity) ∧
      ((fdCacheAddAll p (keys.map fun k => (k, v))).fdCache.entries.map Prod.fst =
        keys.reverse.take p.fdCache.capacity) ∧
      ((fdCacheAddAll p (keys.map fun k => (k, v))).evictedCounter =
        p.evictedCounter + (keys.length - p.fdCache.capacity)) := by
  induction keys using List.reverseRecOn with
  | nil =>
    intro p hp _
    refine ⟨rfl, ?_, ?_⟩
    · simp [fdCacheAddAll, hp]
    · simp [fdCacheAddAll]
  | append_singleton ks k ih =>
    intro p hp hnd
    have hnd' : ks.Nodup := (List.nodup_append.mp hnd).1
    have hkks : k ∉ ks := by
      have hd := (List.nodup_append.mp hnd).2.2
      intro hmem
      exact hd hmem (List.mem_singleton_self k)
    obtain ⟨hcap, hkeys, hcnt⟩ := ih p hp hnd'
    have hstep : fdCacheAddAll p ((ks ++ [k]).map fun x => (x, v)) =
        (fdCacheAddAll p (ks.map fun x => (x, v))).fdCacheAdd k v := by
      rw [List.map_append]
      simpa using fdCacheAddAll_append_single p (ks.map fun x => (x, v)) (k, v)
    set q := fdCacheAddAll p (ks.map fun x => (x, v)) with hq
    have hfresh : ∀ e ∈ q.fdCache.entries, (e.1 != k) = true := by
      intro e he
      have hmm : e.1 ∈ q.fdCache.entries.map Prod.fst := List.mem_map_of_mem Prod.fst he
      rw [hkeys] at hmm
      have hks : e.1 ∈ ks :=
        List.mem_reverse.mp (List.take_subset _ _ hmm)
      exact bne_iff_ne.mpr fun he2 => hkks (he2 ▸ hks)
    have hfilter : q.fdCache.entries.filter (fun e => e.1 != k) = q.fdCache.entries :=
      List.filter_eq_self.mpr hfresh
    have hlen : q.fdCache.entries.length = min p.fdCache.capacity ks.length := by
      have hl := congrArg List.length hkeys
      rw [List.length_map] at hl
      rw [hl, List.length_take, List.length_reverse]
    rw [hstep]
    by_cases hcase : q.fdCache.capacity < ((k, v) :: q.fdCache.entries).length
    · have hcaple : p.fdCache.capacity ≤ ks.length := by
        rw [List.length_cons, hcap, hlen] at hcase
        omega
      have hadd : q.fdCacheAdd k v =
          { q with
            fdCache := { q.fdCache with entries := ((k, v) :: q.fdCache.entries).dropLast }
            evictedCounter := q.evictedCounter + 1 } := by
        simp only [tlsPoller.fdCacheAdd, LRU.add, hfilter]
        rw [if_pos hcase]
        rfl
      rw [hadd]
      refine ⟨hcap, ?_, ?_⟩
      · show ((k, v) :: q.fdCache.entries).dropLast.map Prod.fst =
          (ks ++ [k]).reverse.take p.fdCache.capacity
        rw [map_fst_dropLast, List.map_cons, hkeys, List.reverse_append]
        simp only [List.reverse_singleton, List.singleton_append]
        exact cons_take_dropLast k ks.reverse p.fdCache.capacity
          (by rw [List.length_reverse]; exact hcaple)
      · show q.evictedCounter + 1 =
          p.evictedCounter + ((ks ++ [k]).length - p.fdCache.capacity)
        rw [hcnt, List.length_append]
        simp only [List.length_singleton]
        omega
    · have hcaplt : ks.length < p.fdCache.capacity := by
        rw [List.length_cons, hcap, hlen] at hcase
        omega
      have hadd : q.fdCacheAdd k v =
          { q with fdCache := { q.fdCache with entries := (k, v) :: q.fdCache.entries } } := by
        simp only [tlsPoller.fdCacheAdd, LRU.add, hfilter]
        rw [if_neg hcase]
        rfl
      rw [hadd]
      refine ⟨hcap, ?_, ?_⟩
      · show ((k, v) :: q.fdCache.entries).map Prod.fst =
          (ks ++ [k]).reverse.take p.fdCache.capacity
        rw [List.map_cons, hkeys, List.reverse_append]
        simp only [List.reverse_singleton, List.singleton_append]
        rw [List.take_of_length_le (by rw [List.length_reverse]; omega),
          List.take_of_length_le (by simp [List.length_reverse]; omega)]
      · show q.evictedCounter =
          p.evictedCounter + ((ks ++ [k]).length - p.fdCache.capacity)
        rw [hcnt, List.length_append]
        simp only [List.length_singleton]
        omega

/-- Claim C8: the fd cache capacity is the construction-time constant
500000/40 = 12500; a cache never grows past its capacity; and starting from
an empty cache of capacity C, inserting C distinct keys evicts nothing while
inserting C+1 distinct keys evicts exactly one entry — the least recently
used one, i.e. the first key inserted — incrementing the eviction counter by
exactly 1 and leaving the size at C. -/
theorem fdCache_capacity_bound :
    fdCacheMaxItems = 12500 ∧
    (∀ (c : LRU) (k : String) (v : addressPair),
      c.entries.length ≤ c.capacity → ((c.add k v).1.entries.length ≤ c.capacity)) ∧
    (∀ (p : tlsPoller) (keys : List String) (v : addressPair),
      p.fdCache.entries = [] → keys.Nodup →
      ((keys.length ≤ p.fdCache.capacity →
        (fdCacheAddAll p (keys.map fun k => (k, v))).evictedCounter = p.evictedCounter ∧
        (fdCacheAddAll p (keys.map fun k => (k, v))).fdCache.entries.length = keys.length) ∧
       (keys.length = p.fdCache.capacity + 1 →
        (fdCacheAddAll p (keys.map fun k => (k, v))).evictedCounter = p.evictedCounter + 1 ∧
        (fdCacheAddAll p (keys.map fun k => (k, v))).fdCache.entries.length =
          p.fdCache.capacity ∧
        (fdCacheAddAll p (keys.map fun k => (k, v))).fdCache.entries.map Prod.fst =
          (keys.drop 1).reverse))) := by
  refine ⟨by decide, ?_, ?_⟩
  · intro c k v hle
    simp only [LRU.add]
    by_cases hc : c.capacity < ((k, v) :: c.entries.filter (fun e => e.1 != k)).length
    · rw [if_pos hc]
      have hfl := List.length_filter_le (fun e => e.1 != k) c.entries
      simp only [List.length_dropLast, List.length_cons]
      omega
    · rw [if_neg hc]
      simpa using Nat.not_lt.mp hc
  · intro p keys v hp hnd
    obtain ⟨hcap, hkeys, hcnt⟩ := fdCacheAddAll_spec v keys p hp hnd
    have hlen : (fdCacheAddAll p (keys.map fun k => (k, v))).fdCache.entries.length =
        min p.fdCache.capacity keys.length := by
      have hl := congrArg List.length hkeys
      rw [List.length_map] at hl
      rw [hl, List.length_take, List.length_reverse]
    constructor
    · intro hle
      constructor
      · rw [hcnt]; omega
      · rw [hlen]; omega
    · intro heq
      refine ⟨?_, ?_, ?_⟩
      · rw [hcnt, heq]; omega
      · rw [hlen, heq]; omega
      · rw [hkeys, List.take_reverse,
          show keys.length - p.fdCache.capacity = 1 from by omega]

/-- The capacity-2 poller used by the C8 witness. -/
def pollerCap2 : tlsPoller :=
  { streams := fun _ => none
    fdCache := { capacity := 2, entries := [] }
    evictedCounter := 0 }

/-- The value inserted by the C8 witness. -/
def vEx : addressPair := { srcIp := "10.0.0.1", srcPort := 5000, dstIp := "10.0.0.2", dstPort := 443 }

theorem fdCache_capacity_bound_witness :
    ((fdCacheAddAll pollerCap2 (["a", "b"].map fun k => (k, vEx))).evictedCounter =
      pollerCap2.evictedCounter) ∧
    ((fdCacheAddAll pollerCap2 (["a", "b", "c"].map fun k => (k, vEx))).evictedCounter =
      pollerCap2.evictedCounter + 1) ∧
    ((fdCacheAddAll pollerCap2 (["a", "b", "c"].map fun k => (k, vEx))).fdCache.entries.length =
      pollerCap2.fdCache.capacity) ∧
    ((fdCacheAddAll pollerCap2 (["a", "b", "c"].map fun k => (k, vEx))).fdCache.entries.map
        Prod.fst = (["a", "b", "c"].drop 1).reverse) :=
  ⟨((fdCache_capacity_bound.2.2 pollerCap2 ["a", "b"] vEx rfl (by decide)).1 (by decide)).1,
   ((fdCache_capacity_bound.2.2 pollerCap2 ["a", "b", "c"] vEx rfl (by decide)).2 (by decide)).1,
   ((fdCache_capacity_bound.2.2 pollerCap2 ["a", "b", "c"] vEx rfl (by decide)).2 (by decide)).2.1,
   ((fdCache_capacity_bound.2.2 pollerCap2 ["a", "b", "c"] vEx rfl (by decide)).2 (by decide)).2.2⟩
